import Mathlib

/-!
Shallow embedding of apache/cordova-fetch (src/index.js): the fetch
orchestrator, npm argument construction, npm-output parsing, installed
package resolution and validation, and uninstall. JavaScript string
operations are modelled by structurally recursive functions over the
character list of a string, so that every definition evaluates inside
the kernel.
-/

namespace CordovaFetch

/-! ## JavaScript string primitives (models of String.prototype methods) -/

/-- Model of JavaScript `s.split(c)` for a one-character separator,
on the character list. Empty input yields one empty group, like JS. -/
def splitListOn (c : Char) : List Char → List (List Char)
  | [] => [[]]
  | ch :: rest =>
    match splitListOn c rest with
    | [] => [[]]
    | grp :: gs => if ch = c then [] :: grp :: gs else (ch :: grp) :: gs

/-- Model of JavaScript `s.split(c)` returning strings. -/
def jsSplit (c : Char) (s : String) : List String :=
  (splitListOn c s.toList).map (fun l => String.mk l)

/-- Character-list core of JavaScript `s.startsWith(p)`. -/
def startsWithChars : List Char → List Char → Bool
  | _, [] => true
  | [], _ :: _ => false
  | a :: as, b :: bs => if a = b then startsWithChars as bs else false

/-- Model of JavaScript `s.startsWith(p)`. -/
def jsStartsWith (s p : String) : Bool := startsWithChars s.toList p.toList

/-- Model of JavaScript `s.slice(n)` for a nonnegative index. -/
def jsSlice (n : Nat) (s : String) : String := String.mk (s.toList.drop n)

/-- True when the pattern occurs as a contiguous subsequence of the list. -/
def containsSeq (pat : List Char) : List Char → Bool
  | [] => pat.isEmpty
  | c :: rest => startsWithChars (c :: rest) pat || containsSeq pat rest

/-- Split a list at the first occurrence of a character: the part before
it and, when the character occurs, the part after it. -/
def breakAt (ch : Char) : List Char → List Char × Option (List Char)
  | [] => ([], none)
  | c :: rest =>
    if c = ch then ([], some rest)
    else
      match breakAt ch rest with
      | (pre, o) => (c :: pre, o)

/-- Numeric value of an ASCII digit character, if it is one. -/
def digitVal (c : Char) : Option Nat :=
  let n := c.toNat
  if 48 ≤ n ∧ n ≤ 57 then some (n - 48) else none

/-- Parse a nonempty all-digit character list as a natural number. -/
def parseNatChars (l : List Char) : Option Nat :=
  if l = [] then none
  else l.foldl (fun acc c =>
    match acc, digitVal c with
    | some a, some d => some (a * 10 + d)
    | _, _ => none) (some 0)

/-! ## Model of the semver collaborator

Models the calls src/index.js makes into the `semver` package:
`semver.satisfies(version, rawSpec)` for the plain version strings found
in manifests and the range forms exercised here (empty or star range
matching anything, an exact version, and a caret range). An unparseable
version or range makes `satisfies` return false, as in node-semver. -/

structure SemVer where
  major : Nat
  minor : Nat
  patch : Nat
deriving DecidableEq, Repr

/-- Version ranges: match-anything, exact version, caret range. -/
inductive Range where
  | any : Range
  | exact : SemVer → Range
  | caret : SemVer → Range
deriving DecidableEq, Repr

/-- Parse a `major.minor.patch` version from characters. -/
def parseSemVerChars (l : List Char) : Option SemVer :=
  match splitListOn '.' l with
  | [a, b, c] =>
    match parseNatChars a, parseNatChars b, parseNatChars c with
    | some x, some y, some z => some ⟨x, y, z⟩
    | _, _, _ => none
  | _ => none

/-- Parse a `major.minor.patch` version string. -/
def parseSemVer (s : String) : Option SemVer := parseSemVerChars s.toList

/-- Parse a range string: empty and `*` match anything, `^v` is a caret
range, a plain version is an exact range; anything else is invalid. -/
def parseRange (s : String) : Option Range :=
  if s = "" then some .any
  else if s = "*" then some .any
  else
    match s.toList with
    | '^' :: rest => (parseSemVerChars rest).map .caret
    | l => (parseSemVerChars l).map .exact

/-- Lexicographic order on versions (non-strict). -/
def vLe (a b : SemVer) : Bool :=
  a.major < b.major ||
    (a.major = b.major &&
      (a.minor < b.minor || (a.minor = b.minor && a.patch ≤ b.patch)))

/-- Lexicographic order on versions (strict). -/
def vLt (a b : SemVer) : Bool :=
  a.major < b.major ||
    (a.major = b.major &&
      (a.minor < b.minor || (a.minor = b.minor && a.patch < b.patch)))

/-- Smallest version breaking compatibility with `w` under caret rules. -/
def nextBreaking (w : SemVer) : SemVer :=
  if w.major > 0 then ⟨w.major + 1, 0, 0⟩
  else if w.minor > 0 then ⟨0, w.minor + 1, 0⟩
  else ⟨0, 0, w.patch + 1⟩

/-- Does version `v` satisfy range `r`. -/
def satisfiesRange (v : SemVer) : Range → Bool
  | .any => true
  | .exact w => v = w
  | .caret w => vLe w v && vLt v (nextBreaking w)

/-- Model of `semver.satisfies(version, rawSpec)`: false whenever the
version or the range fails to parse. -/
def semverSatisfies (version rawSpec : String) : Bool :=
  match parseSemVer version, parseRange rawSpec with
  | some v, some r => satisfiesRange v r
  | _, _ => false

/-! ## Model of the npm-package-arg collaborator

Models `npa(spec)` for the specifier forms the claims exercise: plain
registry names, scoped names, both with an optional `@range` suffix
(split at the first `@` at position one or later), and git or URL
specifiers, for which no name is derivable. -/

structure NpaResult where
  name : Option String
  rawSpec : String
deriving DecidableEq, Repr

/-- Split `name@rawSpec` at the first `@` at position one or later, so a
leading `@` of a scoped name is never the separator. -/
def splitNameSpec (s : String) : String × Option String :=
  match s.toList with
  | [] => ("", none)
  | c :: rest =>
    match breakAt '@' rest with
    | (pre, none) => (String.mk (c :: pre), none)
    | (pre, some post) => (String.mk (c :: pre), some (String.mk post))

/-- Model of `npa(spec)`: git and URL specifiers yield no name; registry
specifiers are split into name and raw version constraint, with an empty
constraint when none is given. -/
def npa (spec : String) : NpaResult :=
  if jsStartsWith spec "git+" || jsStartsWith spec "git@" ||
      containsSeq (String.toList "://") spec.toList then
    { name := none, rawSpec := spec }
  else
    match splitNameSpec spec with
    | (n, none) => { name := some n, rawSpec := "" }
    | (n, some r) => { name := some n, rawSpec := r }

/-- JavaScript truthiness check of the parsed name, as in `if (!name)`:
absent and empty names are both falsy. -/
def isFalsyName : Option String → Bool
  | none => true
  | some s => s = ""

/-! ## Filesystem model and the installed-package resolver -/

/-- A directory path, as its list of components from the root. -/
abbrev Dir := List String

/-- A package manifest (package.json): its name and version fields. -/
structure Manifest where
  name : String
  version : String
deriving DecidableEq, Repr

/-- Contents of the dependency stores: `fs d n = some m` says directory
`d` (a node_modules directory or an auxiliary search-path entry) holds
package `n` with manifest `m` at `d/n/package.json`. -/
abbrev FS := Dir → String → Option Manifest

/-- Error taxonomy of the library: every throw site of src/index.js has
one constructor; the module wraps them all in one uniform error type. -/
inductive FetchError where
  | missingArgument : FetchError
  | npmNotInstalled : FetchError
  | unparseableOutput : String → FetchError
  | invalidSpecifier : String → FetchError
  | packageNotFound : String → FetchError
  | versionMismatch : String → String → String → FetchError
deriving DecidableEq, Repr

deriving instance DecidableEq for Except

/-- Parse a path string into components, dropping empty segments. -/
def strToDir (s : String) : Dir :=
  ((splitListOn '/' s.toList).map (fun l => String.mk l)).filter (fun p => p ≠ "")

/-- POSIX `path.delimiter`. -/
def pathDelimiter : Char := ':'

/-- Split the NODE_PATH environment value on the path delimiter and drop
empty segments, as in `(process.env.NODE_PATH || '').split(path.delimiter).filter(p => p)`. -/
def splitNodePath (s : String) : List String :=
  (jsSplit pathDelimiter s).filter (fun p => p ≠ "")

/-- The directory and all of its ancestors up to the root, nearest first. -/
def ancestors (d : Dir) : List Dir := d.inits.reverse

/-- The node_modules directories the resolve collaborator walks: one per
ancestor of the base directory, nearest first. -/
def nodeModulesChain (basedir : Dir) : List Dir :=
  (ancestors basedir).map (fun d => d ++ ["node_modules"])

/-- The full candidate chain: the node_modules ancestor walk, then the
auxiliary NODE_PATH entries, in order. -/
def candidateDirs (basedir : Dir) (nodePath : String) : List Dir :=
  nodeModulesChain basedir ++ (splitNodePath nodePath).map strToDir

/-- Model of `resolvePathToPackage(name, basedir)` of src/index.js: walk
the candidate chain for `name/package.json` and return the directory
holding the manifest (the dirname of the package.json path) together
with the parsed manifest; reject with a not-found error when the chain
is exhausted. -/
def resolvePathToPackage (name : String) (basedir : Dir) (nodePath : String)
    (fs : FS) : Except FetchError (Dir × Manifest) :=
  match (candidateDirs basedir nodePath).findSome?
      (fun d => (fs d name).map (fun m => (d, m))) with
  | some (d, m) => .ok (d ++ [name], m)
  | none => .error (.packageNotFound name)

/-- Model of `pathToInstalledPackage(spec, dest)` of src/index.js: parse
the spec, reject when no name is derivable, resolve the name from `dest`
and reject unless the installed version satisfies the raw constraint of
the spec. -/
def pathToInstalledPackage (spec : String) (dest : Dir) (nodePath : String)
    (fs : FS) : Except FetchError Dir :=
  if isFalsyName (npa spec).name then .error (.invalidSpecifier spec)
  else
    match (npa spec).name with
    | none => .error (.invalidSpecifier spec)
    | some name =>
      match resolvePathToPackage name dest nodePath fs with
      | .error e => .error e
      | .ok (pkgPath, pkgJson) =>
        if semverSatisfies pkgJson.version (npa spec).rawSpec then .ok pkgPath
        else .error (.versionMismatch name pkgJson.version (npa spec).rawSpec)

/-! ## npm argument construction and output parsing -/

/-- Options recognized by fetch, as in src/index.js (`save_exact`, `save`). -/
structure FetchOpts where
  save : Bool := false
  save_exact : Bool := false
deriving DecidableEq, Repr

/-- Model of `npmArgs(target, opts)` of src/index.js. -/
def npmArgs (target : String) (opts : FetchOpts) : List String :=
  ["install", target] ++
    (if opts.save_exact then ["--save-exact"]
     else if opts.save then ["--save-dev"]
     else ["--no-save"])

/-- Model of `getTargetPackageSpecFromNpmInstallOutput(output)` of
src/index.js: the remainder of the first output line starting with the
marker `+ `, or an unparseable-output error carrying the whole output. -/
def getTargetPackageSpecFromNpmInstallOutput (npmInstallOutput : String) :
    Except FetchError String :=
  match (jsSplit '\n' npmInstallOutput).find? (fun line => jsStartsWith line "+ ") with
  | some packageInfoLine => .ok (jsSlice 2 packageInfoLine)
  | none => .error (.unparseableOutput npmInstallOutput)

/-! ## The fetch and uninstall orchestrators -/

/-- The world a call runs against: the store contents before and after
the npm install subprocess, the NODE_PATH value, whether `npm` is on the
PATH, and the text the subprocess prints. -/
structure Env where
  fs : FS
  fsAfterInstall : FS
  nodePath : String
  npmAvailable : Bool
  npmOutput : String

/-- Model of `installPackage(target, dest, opts)` of src/index.js. The
second component counts npm subprocess invocations (0 or 1 here). The
post-install resolution runs against the store as the subprocess left
it. -/
def installPackage (target dest : String) (opts : FetchOpts) (env : Env) :
    Except FetchError Dir × Nat :=
  if env.npmAvailable = false then (.error .npmNotInstalled, 0)
  else
    let _args := npmArgs target opts
    match getTargetPackageSpecFromNpmInstallOutput env.npmOutput with
    | .error e => (.error e, 1)
    | .ok spec =>
      (pathToInstalledPackage spec (strToDir dest) env.nodePath env.fsAfterInstall, 1)

/-- Model of the exported fetch function of src/index.js: validate the
arguments, try the fast path, and on any fast-path error fall through to
the external install. The second component counts npm subprocess
invocations. -/
def fetch (target dest : String) (opts : FetchOpts) (env : Env) :
    Except FetchError Dir × Nat :=
  if dest = "" ∨ target = "" then (.error .missingArgument, 0)
  else
    match pathToInstalledPackage target (strToDir dest) env.nodePath env.fs with
    | .ok p => (.ok p, 0)
    | .error _ => installPackage target dest opts env

/-- Options recognized by uninstall; `cwd` is what the function itself
writes into the caller's object before spawning. -/
structure UninstallOpts where
  save : Bool := false
  cwd : Option String := none
deriving DecidableEq, Repr

/-- Model of the exported uninstall function of src/index.js: the npm
availability check runs first; then the arguments are validated, the
destination is written into the options object, and the npm removal
command is spawned. The result carries the argv of the spawned command;
the second component is the options object as the caller sees it after
the call (src/index.js mutates it via `opts.cwd = dest`). -/
def uninstall (target dest : String) (opts : Option UninstallOpts) (env : Env) :
    Except FetchError (List String) × UninstallOpts :=
  let o := opts.getD {}
  if env.npmAvailable = false then (.error .npmNotInstalled, o)
  else if dest ≠ "" ∧ target ≠ "" then
    let o2 := { o with cwd := some dest }
    (.ok (["uninstall", target] ++
      (if o2.save then ["--save-dev"] else ["--no-save"])), o2)
  else (.error .missingArgument, o)

/-! ## Auxiliary predicates and concrete fixtures -/

/-- The three persistence flags npm install/uninstall may receive. -/
def isPersistenceFlag (s : String) : Bool :=
  s = "--save-exact" || s = "--save-dev" || s = "--no-save"

/-- A store holding foo 1.2.3 in /a/b/node_modules and foo 9.9.9 in the
ancestor store /a/node_modules. -/
def sampleFs : FS := fun d n =>
  if d = ["a", "b", "node_modules"] ∧ n = "foo" then some ⟨"foo", "1.2.3"⟩
  else if d = ["a", "node_modules"] ∧ n = "foo" then some ⟨"foo", "9.9.9"⟩
  else none

/-- A store with no packages at all. -/
def emptyFs : FS := fun _ _ => none

/-- An environment with npm available and foo 1.2.3 already installed. -/
def sampleEnv : Env where
  fs := sampleFs
  fsAfterInstall := sampleFs
  nodePath := ""
  npmAvailable := true
  npmOutput := ""

/-- A store holding foo 2.0.0 in /d/node_modules, as npm leaves it after
an install that picked version 2.0.0. -/
def postC2Fs : FS := fun d n =>
  if d = ["d", "node_modules"] ∧ n = "foo" then some ⟨"foo", "2.0.0"⟩ else none

/-- An environment whose npm subprocess installs foo 2.0.0 and reports
it, while nothing is installed beforehand. -/
def envC2 : Env where
  fs := emptyFs
  fsAfterInstall := postC2Fs
  nodePath := ""
  npmAvailable := true
  npmOutput := "+ foo@2.0.0"

/-- An environment where npm is not on the PATH. -/
def envNoNpm : Env where
  fs := emptyFs
  fsAfterInstall := emptyFs
  nodePath := ""
  npmAvailable := false
  npmOutput := ""

/-- An environment whose npm subprocess installs foo 1.2.3 from a git
URL and reports it. -/
def envGit : Env where
  fs := emptyFs
  fsAfterInstall := postC2Fs
  nodePath := ""
  npmAvailable := true
  npmOutput := "+ foo@1.2.3"

/-! ## Helper lemmas -/

theorem findSome?_append_none {α β : Type} (f : α → Option β) (l1 l2 : List α)
    (h : ∀ x ∈ l1, f x = none) :
    (l1 ++ l2).findSome? f = l2.findSome? f := by
  induction l1 with
  | nil => rfl
  | cons a l ih =>
    have ha : f a = none := h a (by simp)
    have hl : ∀ x ∈ l, f x = none := fun x hx => h x (by simp [hx])
    simp [List.findSome?_cons, ha, ih hl]

theorem find?_append_first {α : Type} (p : α → Bool) (pre suf : List α) (d : α)
    (hpre : ∀ x ∈ pre, p x = false) (hd : p d = true) :
    (pre ++ d :: suf).find? p = some d := by
  induction pre with
  | nil => simpa using List.find?_cons_of_pos suf hd
  | cons a l ih =>
    have ha : ¬ p a := by simp [hpre a (by simp)]
    have hl : ∀ x ∈ l, p x = false := fun x hx => hpre x (by simp [hx])
    simpa [List.find?_cons_of_neg _ ha] using ih hl

/-- Inversion of a successful pathToInstalledPackage: a name was
derivable, resolution succeeded at the returned path, and the resolved
manifest version satisfies the raw constraint of the spec. -/
theorem pathToInstalledPackage_ok_inv (spec : String) (dest : Dir)
    (nodePath : String) (fs : FS) (p : Dir)
    (h : pathToInstalledPackage spec dest nodePath fs = .ok p) :
    ∃ name m, (npa spec).name = some name ∧
      resolvePathToPackage name dest nodePath fs = .ok (p, m) ∧
      semverSatisfies m.version (npa spec).rawSpec = true := by
  unfold pathToInstalledPackage at h
  split at h
  · cases h
  · split at h
    · cases h
    · rename_i name hname
      split at h
      · cases h
      · rename_i pkgPath pkgJson hres
        split at h
        · rename_i hsat
          cases h
          exact ⟨name, pkgJson, hname, hres, hsat⟩
        · cases h

/-! ## Claim theorems and witnesses -/

/-- C3: whenever the manifest of a package exists in the dependency
store of the starting directory or of one of its ancestors, the resolver
returns the directory containing that manifest, picking the first match
of the candidate chain (nearer directories win over ancestors), and the
manifest — its name field included — is returned exactly as stored. -/
theorem resolve_returns_first_chain_match (name : String) (basedir : Dir)
    (nodePath : String) (fs : FS) (pre suf : List Dir) (d : Dir) (m : Manifest)
    (hchain : candidateDirs basedir nodePath = pre ++ d :: suf)
    (hpre : ∀ e ∈ pre, fs e name = none)
    (hd : fs d name = some m)
    (hanc : d ∈ nodeModulesChain basedir) :
    resolvePathToPackage name basedir nodePath fs = .ok (d ++ [name], m) := by
  unfold resolvePathToPackage
  rw [hchain, findSome?_append_none _ pre _ (fun e he => by simp [hpre e he])]
  simp [List.findSome?_cons, hd]

/-- Witness for C3: with foo 1.2.3 in /a/b/node_modules and foo 9.9.9 in
the ancestor store /a/node_modules, resolution from /a/b returns the
nearer installation and its manifest unchanged. -/
theorem resolve_returns_first_chain_match_witness :
    resolvePathToPackage "foo" (strToDir "/a/b") "" sampleFs =
      .ok (["a", "b", "node_modules"] ++ ["foo"], ⟨"foo", "1.2.3"⟩) :=
  resolve_returns_first_chain_match "foo" (strToDir "/a/b") "" sampleFs
    [] [["a", "node_modules"], ["node_modules"]] ["a", "b", "node_modules"]
    ⟨"foo", "1.2.3"⟩ (by decide) (by simp) (by decide) (by decide)

/-- C8: the auxiliary NODE_PATH value is split on the path delimiter
with empty segments filtered out, malformed entries never cause a
failure, and the only resolution failure is the package-not-found error,
which occurs exactly when no directory of the whole candidate chain
holds the package's manifest. -/
theorem resolve_tolerates_malformed_search_path (name : String) (basedir : Dir)
    (nodePath : String) (fs : FS) :
    (∀ seg ∈ splitNodePath nodePath, seg ≠ "") ∧
    (resolvePathToPackage name basedir nodePath fs =
        .error (.packageNotFound name) ↔
      ∀ d ∈ candidateDirs basedir nodePath, fs d name = none) ∧
    ((∃ r, resolvePathToPackage name basedir nodePath fs = .ok r) ∨
      resolvePathToPackage name basedir nodePath fs =
        .error (.packageNotFound name)) := by
  refine ⟨fun seg hseg => ?_, ?_, ?_⟩
  · simpa using (List.mem_filter.mp hseg).2
  · unfold resolvePathToPackage
    cases hf : (candidateDirs basedir nodePath).findSome?
        (fun d => (fs d name).map (fun m => (d, m))) with
    | none =>
      simp only [List.findSome?_eq_none_iff] at hf
      constructor
      · intro _ d hd
        have := hf d hd
        simpa using this
      · intro _
        rfl
    | some r =>
      constructor
      · intro h
        cases h
      · intro hall
        obtain ⟨d, hd, hmap⟩ := List.exists_of_findSome?_eq_some hf
        rw [hall d hd] at hmap
        cases hmap
  · unfold resolvePathToPackage
    cases hf : (candidateDirs basedir nodePath).findSome?
        (fun d => (fs d name).map (fun m => (d, m))) with
    | none => exact Or.inr rfl
    | some r => exact Or.inl ⟨(r.1 ++ [name], r.2), by simp⟩

/-- Witness for C8: a NODE_PATH value made of empty segments and an
entry holding nothing does not make resolution throw; the lookup of an
absent package surfaces only the package-not-found error. -/
theorem resolve_tolerates_malformed_search_path_witness :
    resolvePathToPackage "bar" (strToDir "/a/b") ":bad::" sampleFs =
      .error (.packageNotFound "bar") :=
  ((resolve_tolerates_malformed_search_path "bar" (strToDir "/a/b") ":bad::"
    sampleFs).2.1).mpr (by decide)

/-- C4: the npm output parser returns the remainder of the first line
beginning with the marker `+ `, skipping all preceding non-matching
lines, and fails with the unparseable-output error carrying the full
original text exactly when no line begins with the marker; on the input
`+ foo@1.2.3` it returns `foo@1.2.3`. -/
theorem output_parsing_first_marker_line (out : String) :
    (∀ pre line suf, jsSplit '\n' out = pre ++ line :: suf →
      (∀ l ∈ pre, jsStartsWith l "+ " = false) →
      jsStartsWith line "+ " = true →
      getTargetPackageSpecFromNpmInstallOutput out = .ok (jsSlice 2 line)) ∧
    (getTargetPackageSpecFromNpmInstallOutput out =
        .error (.unparseableOutput out) ↔
      ∀ l ∈ jsSplit '\n' out, jsStartsWith l "+ " = false) ∧
    getTargetPackageSpecFromNpmInstallOutput "+ foo@1.2.3" = .ok "foo@1.2.3" := by
  refine ⟨fun pre line suf hsplit hpre hline => ?_, ?_, by decide⟩
  · unfold getTargetPackageSpecFromNpmInstallOutput
    rw [hsplit, find?_append_first _ pre suf line hpre hline]
  · unfold getTargetPackageSpecFromNpmInstallOutput
    cases hf : (jsSplit '\n' out).find? (fun line => jsStartsWith line "+ ") with
    | none =>
      rw [List.find?_eq_none] at hf
      constructor
      · intro _ l hl
        simpa using hf l hl
      · intro _
        rfl
    | some l =>
      constructor
      · intro h
        cases h
      · intro hall
        have hmem := List.find?_some hf
        have hin := List.mem_of_find?_eq_some hf
        rw [hall l hin] at hmem
        cases hmem

/-- Witness for C4: on output with leading chatter, the parser returns
the remainder of the first marker line. -/
theorem output_parsing_first_marker_line_witness :
    getTargetPackageSpecFromNpmInstallOutput "npm chatter\n+ foo@1.2.3\nextra" =
      .ok "foo@1.2.3" := by
  rw [(output_parsing_first_marker_line "npm chatter\n+ foo@1.2.3\nextra").1
    ["npm chatter"] "+ foo@1.2.3" ["extra"] (by decide) (by decide) (by decide)]
  decide

/-- C5: the install argument list starts with the install verb followed
by the specifier and carries exactly one persistence flag, the exact-pin
flag when save_exact is set (even when save is also set), otherwise the
save flag when save is set, otherwise the no-save flag. -/
theorem npmArgs_exactly_one_persistence_flag (target : String) (opts : FetchOpts) :
    npmArgs target opts =
      ["install", target,
        if opts.save_exact then "--save-exact"
        else if opts.save then "--save-dev"
        else "--no-save"] ∧
    (isPersistenceFlag target = false →
      ((npmArgs target opts).filter isPersistenceFlag).length = 1) ∧
    npmArgs "pkg" { save_exact := true } = ["install", "pkg", "--save-exact"] ∧
    npmArgs "pkg" { save := true, save_exact := true } =
      ["install", "pkg", "--save-exact"] ∧
    npmArgs "pkg" { save := false } = ["install", "pkg", "--no-save"] ∧
    npmArgs "pkg" {} = ["install", "pkg", "--no-save"] := by
  obtain ⟨s, se⟩ := opts
  refine ⟨?_, fun ht => ?_, by decide, by decide, by decide, by decide⟩
  · cases s <;> cases se <;> rfl
  · simp only [isPersistenceFlag] at ht
    cases s <;> cases se <;>
      simp [npmArgs, List.filter_cons, List.filter_nil, isPersistenceFlag, ht]

/-- Witness for C5: with an ordinary specifier the filter finds exactly
one persistence flag. -/
theorem npmArgs_exactly_one_persistence_flag_witness :
    ((npmArgs "pkg" { save_exact := true }).filter isPersistenceFlag).length = 1 :=
  (npmArgs_exactly_one_persistence_flag "pkg" { save_exact := true }).2.1 (by decide)

/-- C6: pathToInstalledPackage validates the resolved installation via
semver satisfaction: with installed version 1.2.3, the requested
constraint caret-1.0.0 succeeds and the path is returned, while
caret-2.0.0 fails with the version-mismatch error. -/
theorem pathToInstalledPackage_semver_validation (dest : Dir) (nodePath : String)
    (fs : FS) (p : Dir) (m : Manifest)
    (hres : resolvePathToPackage "foo" dest nodePath fs = .ok (p, m))
    (hver : m.version = "1.2.3") :
    pathToInstalledPackage "foo@^1.0.0" dest nodePath fs = .ok p ∧
    pathToInstalledPackage "foo@^2.0.0" dest nodePath fs =
      .error (.versionMismatch "foo" "1.2.3" "^2.0.0") := by
  have h1 : npa "foo@^1.0.0" = { name := some "foo", rawSpec := "^1.0.0" } := by
    decide
  have h2 : npa "foo@^2.0.0" = { name := some "foo", rawSpec := "^2.0.0" } := by
    decide
  have hs1 : semverSatisfies "1.2.3" "^1.0.0" = true := by decide
  have hs2 : semverSatisfies "1.2.3" "^2.0.0" = false := by decide
  constructor
  · unfold pathToInstalledPackage
    simp [h1, hres, hver, hs1, isFalsyName]
  · unfold pathToInstalledPackage
    simp [h2, hres, hver, hs2, isFalsyName]

/-- Witness for C6: foo 1.2.3 installed under /a/b passes the
caret-1.0.0 validation and fails the caret-2.0.0 one. -/
theorem pathToInstalledPackage_semver_validation_witness :
    pathToInstalledPackage "foo@^1.0.0" (strToDir "/a/b") "" sampleFs =
      .ok ["a", "b", "node_modules", "foo"] ∧
    pathToInstalledPackage "foo@^2.0.0" (strToDir "/a/b") "" sampleFs =
      .error (.versionMismatch "foo" "1.2.3" "^2.0.0") :=
  pathToInstalledPackage_semver_validation (strToDir "/a/b") "" sampleFs
    ["a", "b", "node_modules", "foo"] ⟨"foo", "1.2.3"⟩ (by decide) (by decide)

/-- C1: when the fast-path resolution finds an installed package whose
version satisfies the constraint of the target, fetch returns that path
with zero npm subprocess invocations, so the install branch is never
reached; fetch is a pure function of its environment, hence a second
call with the same specifier, destination and environment returns the
same path, again without a subprocess invocation. -/
theorem fetch_fast_path_no_install (target dest : String) (opts : FetchOpts)
    (env : Env) (p : Dir)
    (hdest : dest ≠ "") (htarget : target ≠ "")
    (h : pathToInstalledPackage target (strToDir dest) env.nodePath env.fs = .ok p) :
    fetch target dest opts env = (.ok p, 0) := by
  unfold fetch
  rw [if_neg (by simp [hdest, htarget]), h]

/-- Witness for C1: with foo 1.2.3 already installed, fetching
foo at caret-1.0.0 returns its path with no subprocess invocation. -/
theorem fetch_fast_path_no_install_witness :
    fetch "foo@^1.0.0" "/a/b" {} sampleEnv =
      (.ok ["a", "b", "node_modules", "foo"], 0) :=
  fetch_fast_path_no_install "foo@^1.0.0" "/a/b" {} sampleEnv
    ["a", "b", "node_modules", "foo"] (by decide) (by decide) (by decide)

/-- C9: any fast-path error whatsoever — a resolution miss, a version
mismatch, or the invalid-specifier error of a git or URL target — is
silently discarded: fetch then equals the external-install branch, and
the fast-path error value has no influence on the result. -/
theorem fetch_swallows_fast_path_errors (target dest : String) (opts : FetchOpts)
    (env : Env) (e : FetchError)
    (hdest : dest ≠ "") (htarget : target ≠ "")
    (h : pathToInstalledPackage target (strToDir dest) env.nodePath env.fs =
      .error e) :
    fetch target dest opts env = installPackage target dest opts env := by
  unfold fetch
  rw [if_neg (by simp [hdest, htarget]), h]

/-- Witness for C9: a git URL target has no derivable name, the fast
path fails with the invalid-specifier error, and fetch falls through to
the install branch. -/
theorem fetch_swallows_fast_path_errors_witness :
    fetch "git+https://github.com/apache/cordova-android.git" "/d" {} envGit =
      installPackage "git+https://github.com/apache/cordova-android.git" "/d"
        {} envGit :=
  fetch_swallows_fast_path_errors
    "git+https://github.com/apache/cordova-android.git" "/d" {} envGit
    (.invalidSpecifier "git+https://github.com/apache/cordova-android.git")
    (by decide) (by decide) (by decide)

/-- C2, counterexample: with the original target foo at caret-1.0.0, an
npm subprocess that installs and reports foo 2.0.0 makes fetch perform
the install and succeed, returning a path whose manifest version 2.0.0
does not satisfy the originally requested constraint — no
version-mismatch error is raised. -/
theorem fetch_install_ignores_original_constraint :
    fetch "foo@^1.0.0" "/d" {} envC2 = (.ok ["d", "node_modules", "foo"], 1) ∧
    envC2.fsAfterInstall ["d", "node_modules"] "foo" = some ⟨"foo", "2.0.0"⟩ ∧
    (npa "foo@^1.0.0").rawSpec = "^1.0.0" ∧
    semverSatisfies "2.0.0" "^1.0.0" = false := by decide

/-- C2, amended: when fetch falls through to an external install, the
version found by the post-install resolution is validated against the
concrete specifier extracted from the installer's output, not against
the original target: a successful install branch returns only a path
whose resolved manifest version satisfies the output-derived constraint,
and when that resolved version fails the output-derived constraint the
install branch fails with the version-mismatch error. -/
theorem install_validates_output_spec (target dest : String) (opts : FetchOpts)
    (env : Env) :
    (∀ p, installPackage target dest opts env = (.ok p, 1) →
      ∃ spec name m,
        getTargetPackageSpecFromNpmInstallOutput env.npmOutput = .ok spec ∧
        (npa spec).name = some name ∧
        resolvePathToPackage name (strToDir dest) env.nodePath
          env.fsAfterInstall = .ok (p, m) ∧
        semverSatisfies m.version (npa spec).rawSpec = true) ∧
    (∀ (spec : String) (m : Manifest), env.npmAvailable = true →
      getTargetPackageSpecFromNpmInstallOutput env.npmOutput = .ok spec →
      pathToInstalledPackage spec (strToDir dest) env.nodePath
          env.fsAfterInstall =
        .error (.versionMismatch m.name m.version (npa spec).rawSpec) →
      installPackage target dest opts env =
        (.error (.versionMismatch m.name m.version (npa spec).rawSpec), 1)) := by
  constructor
  · intro p h
    unfold installPackage at h
    split at h
    · cases h
    · split at h
      · cases h
      · rename_i spec hspec
        have hpath : pathToInstalledPackage spec (strToDir dest) env.nodePath
            env.fsAfterInstall = .ok p := by
          have := congrArg Prod.fst h
          simpa using this
        obtain ⟨name, m, hname, hres, hsat⟩ :=
          pathToInstalledPackage_ok_inv spec (strToDir dest) env.nodePath
            env.fsAfterInstall p hpath
        exact ⟨spec, name, m, hspec, hname, hres, hsat⟩
  · intro spec m hnpm hspec hmis
    unfold installPackage
    rw [if_neg (by simp [hnpm]), hspec]
    simp [hmis]

/-- Witness for C2's amended theorem: in the environment whose installer
reports foo 2.0.0, the successful install branch resolves foo 2.0.0 and
that version satisfies the output-derived constraint. -/
theorem install_validates_output_spec_witness :
    ∃ spec name m,
      getTargetPackageSpecFromNpmInstallOutput envC2.npmOutput = .ok spec ∧
      (npa spec).name = some name ∧
      resolvePathToPackage name (strToDir "/d") envC2.nodePath
        envC2.fsAfterInstall = .ok (["d", "node_modules", "foo"], m) ∧
      semverSatisfies m.version (npa spec).rawSpec = true :=
  (install_validates_output_spec "foo@^1.0.0" "/d" {} envC2).1
    ["d", "node_modules", "foo"] (by decide)

/-- C7, counterexample: with npm absent and an empty package name,
uninstall fails with the npm-not-installed error, not the
missing-argument error — the availability check runs before argument
validation, so the missing-argument outcome does depend on whether the
package manager is installed. -/
theorem uninstall_checks_npm_before_arguments :
    envNoNpm.npmAvailable = false ∧
    (uninstall "" "somedir" none envNoNpm).1 = .error .npmNotInstalled ∧
    (uninstall "" "somedir" none envNoNpm).1 ≠ .error .missingArgument := by
  decide

/-- C7, amended: uninstall validates its arguments only after the npm
availability check: when npm is unavailable every call fails with the
npm-not-installed error, and when npm is available a call with an empty
name or destination fails with the missing-argument error. -/
theorem uninstall_argument_validation (target dest : String)
    (opts : Option UninstallOpts) (env : Env) :
    (env.npmAvailable = false →
      (uninstall target dest opts env).1 = .error .npmNotInstalled) ∧
    (env.npmAvailable = true → dest = "" ∨ target = "" →
      (uninstall target dest opts env).1 = .error .missingArgument) := by
  constructor
  · intro hnpm
    unfold uninstall
    rw [if_pos hnpm]
  · intro hnpm hempty
    unfold uninstall
    rw [if_neg (by simp [hnpm]), if_neg (by tauto)]

/-- Witness for C7's amended theorem: with npm available and an empty
name, uninstall fails with the missing-argument error. -/
theorem uninstall_argument_validation_witness :
    (uninstall "" "/proj" none sampleEnv).1 = .error .missingArgument :=
  (uninstall_argument_validation "" "/proj" none sampleEnv).2 (by decide)
    (Or.inr rfl)

/-- C10: uninstall mutates the caller-supplied options object: on any
call with a non-null options object, non-empty arguments and npm
available, the options object the caller holds afterwards is the
original one with its cwd field overwritten by the destination. -/
theorem uninstall_mutates_options (target dest : String) (o : UninstallOpts)
    (env : Env)
    (hnpm : env.npmAvailable = true) (ht : target ≠ "") (hd : dest ≠ "") :
    (uninstall target dest (some o) env).2 = { o with cwd := some dest } ∧
    (uninstall target dest (some o) env).2.cwd = some dest := by
  unfold uninstall
  rw [if_neg (by simp [hnpm]), if_pos (by exact ⟨hd, ht⟩)]
  exact ⟨rfl, rfl⟩

/-- Witness for C10: a caller-supplied options object with no cwd comes
back with cwd set to the destination. -/
theorem uninstall_mutates_options_witness :
    (uninstall "pkg" "/proj" (some { save := true }) sampleEnv).2 =
      { save := true, cwd := some "/proj" } ∧
    (uninstall "pkg" "/proj" (some { save := true }) sampleEnv).2.cwd =
      some "/proj" :=
  uninstall_mutates_options "pkg" "/proj" { save := true } sampleEnv
    (by decide) (by decide) (by decide)

end CordovaFetch
